import Mathlib

set_option maxRecDepth 8000

/-!
Shallow embedding of the coordination core of dradtke/wetsuit
(src/main.go): the Application record, the custom GTK main loop with its
Work and Errors channels, Do, Fatal, NonFatal, SetStatus and Quit, plus
the startup sequence in main() and its background goroutine.

Channels are modelled as FIFO lists; a non-blocking receive (a Go
select with a default branch) is a function on such a list.  Work items
and errors are identified by natural numbers where their payload is
irrelevant to the property at hand; where the payload matters (the Do
protocol) a work item carries an actual state-transforming function.
Side effects of straight-line code are recorded as event traces.
-/

/-- Non-blocking receive from a FIFO channel modelled as a list.  This is
a Go select statement with a default branch: an empty channel yields
none and leaves the channel unchanged, a non-empty channel yields its
oldest element. -/
def tryRecv {α : Type} (l : List α) : Option α × List α :=
  match l with
  | [] => (none, l)
  | x :: xs => (some x, xs)

/-- Modelled from the spec: the MopidyStatus enum is declared outside
src/main.go; spec section 3 lists its members as NotStarted, Connecting,
Connected and Failed.  src/main.go names the last three MopidyConnecting,
MopidyConnected and MopidyFailed in the SetStatus switch. -/
inductive MopidyStatus where
  | MopidyNotStarted
  | MopidyConnecting
  | MopidyConnected
  | MopidyFailed
deriving DecidableEq

/-- Observable actions performed by SetStatus, in program order. -/
inductive StatusEv where
  | lockAcquire
  | writeStatus (s : MopidyStatus)
  | setGui (icon : String) (text : String)
  | lockRelease
deriving DecidableEq

/-- The gtk stock icon identifier gtk.STOCK_CONNECT used by SetStatus. -/
def STOCK_CONNECT : String := "gtk-connect"

/-- Embedding of Application.SetStatus (src/main.go lines 144-157): it
acquires StatusLock, writes app.Mopidy.Status, switches on the status to
update the Gui status label, and releases the lock via defer on return.
The switch has cases for MopidyConnecting, MopidyConnected and
MopidyFailed only; any other status value falls through the switch with
no Gui update. -/
def SetStatus (status : MopidyStatus) : List StatusEv :=
  [StatusEv.lockAcquire, StatusEv.writeStatus status] ++
  (match status with
   | MopidyStatus.MopidyConnecting => [StatusEv.setGui "" "Connecting..."]
   | MopidyStatus.MopidyConnected =>
       [StatusEv.setGui STOCK_CONNECT "Connected to Mopidy."]
   | MopidyStatus.MopidyFailed => [StatusEv.setGui "" "Not connected."]
   | MopidyStatus.MopidyNotStarted => []) ++
  [StatusEv.lockRelease]

/-- True on the setGui events of a SetStatus trace. -/
def isSetGui : StatusEv → Bool
  | StatusEv.setGui _ _ => true
  | _ => false

/-- True on the writeStatus events of a SetStatus trace. -/
def isWriteStatus : StatusEv → Bool
  | StatusEv.writeStatus _ => true
  | _ => false

/-- An OS process handle (os.Process); only its identity matters here. -/
structure OsProcess where
  pid : Nat
deriving DecidableEq

/-- Embedding of exec.Cmd as used by Quit: its Process field is a
pointer (*os.Process) that is nil until the command has been started. -/
structure ExecCmd where
  Process : Option OsProcess
deriving DecidableEq

/-- Modelled from the spec: MopidyProc is declared outside src/main.go.
Spec section 3 describes the supervised process record as owning a
nullable OS process handle; Quit reaches that handle through the Cmd
field, so Cmd is modelled as a nullable reference to an exec.Cmd. -/
structure MopidyProc where
  Cmd : Option ExecCmd
deriving DecidableEq

/-- The fields of the Application record (src/main.go lines 16-28) that
Quit touches: the Mopidy pointer (nil until InitMopidy has built the
supervised-process record) and the Running flag. -/
structure Application where
  Mopidy : Option MopidyProc
  Running : Bool
deriving DecidableEq

/-- Observable actions performed by Quit, in program order. -/
inductive QuitEv where
  | killProcess
  | setRunningFalse
deriving DecidableEq

/-- A Go runtime panic raised by dereferencing a nil pointer. -/
inductive GoPanic where
  | nilPointerDereference
deriving DecidableEq

/-- Embedding of Application.Quit (src/main.go lines 160-165).  The
expression app.Mopidy.Cmd.Process dereferences the Mopidy and Cmd
pointers before any nil check; the nil check guards only the Process
field.  If both dereferences succeed, Quit kills the process when the
handle is present and then sets Running to false. -/
def Application.Quit (app : Application) : Except GoPanic (Application × List QuitEv) :=
  match app.Mopidy with
  | none => Except.error GoPanic.nilPointerDereference
  | some m =>
    match m.Cmd with
    | none => Except.error GoPanic.nilPointerDereference
    | some c =>
      Except.ok ({ app with Running := false },
        (match c.Process with
         | some _ => [QuitEv.killProcess]
         | none => []) ++ [QuitEv.setRunningFalse])

/-- Actions that Fatal's dialog response handler performs on dismissal. -/
inductive FatalAct where
  | gtkMainQuit
  | osExit (code : Nat)
deriving DecidableEq

/-- The outcome of a call to Application.Fatal: the dialog is shown, a
response handler is connected, and a nested gtk.Main loop is entered
when no main loop is already running. -/
structure FatalModel where
  message : Nat
  dialogShown : Bool
  onResponse : List FatalAct
  ranNestedLoop : Bool
deriving DecidableEq

/-- Embedding of Application.Fatal (src/main.go lines 110-120): it
builds an error dialog, connects a response handler that calls
gtk.MainQuit and then os.Exit(1), shows the dialog, and if
gtk.MainLevel() is 0 (no native event loop active) runs gtk.Main itself
so the dialog stays interactive. -/
def Application.Fatal (err : Nat) (mainLevel : Nat) : FatalModel :=
  { message := err
    dialogShown := true
    onResponse := [FatalAct.gtkMainQuit, FatalAct.osExit 1]
    ranNestedLoop := mainLevel == 0 }

/-- The exit codes requested by a list of dialog response actions. -/
def exitCodes (l : List FatalAct) : List Nat :=
  l.filterMap (fun a =>
    match a with
    | FatalAct.osExit c => some c
    | _ => none)

/-- Observable outcome of the startup sequence of main(). -/
inductive StartupEv where
  | fatalShown
  | sentToErrorChannel
  | windowShown
deriving DecidableEq

/-- The fallible external lookups main() performs at startup, each
modelled as an Option: none is the error case.  The payloads are
irrelevant and abstracted to opaque values. -/
structure StartupEnv where
  lookPathMopidy : Option String
  currentUser : Option String
  loadConfig : Option Nat
  guiInit : Option Nat
deriving DecidableEq

/-- Embedding of the startup sequence of main() (src/main.go lines
41-71): look up the mopidy executable, look up the current user, load
the configuration file, initialise the Gui; on each failure
Application.Fatal is called.  At startup gtk.MainLevel() is 0, so Fatal
runs a nested gtk.Main whose dialog dismissal exits the process; the
code after a failed step is therefore never reached, and no startup
failure is ever sent to the Errors channel. -/
def mainStartup (env : StartupEnv) : List StartupEv :=
  match env.lookPathMopidy with
  | none => [StartupEv.fatalShown]
  | some _ =>
    match env.currentUser with
    | none => [StartupEv.fatalShown]
    | some _ =>
      match env.loadConfig with
      | none => [StartupEv.fatalShown]
      | some _ =>
        match env.guiInit with
        | none => [StartupEv.fatalShown]
        | some _ => [StartupEv.windowShown]

/-- Observable actions of the startup background goroutine. -/
inductive GoroutineEv where
  | sendErrorToChannel (e : Nat)
  | startMopidyCall
deriving DecidableEq

/-- Embedding of the background goroutine spawned by main()
(src/main.go lines 73-80): it calls InitMopidy; if that returns an
error the error is sent on app.Errors; then StartMopidy is called
unconditionally, whether or not InitMopidy failed. -/
def startupGoroutine (initMopidyErr : Option Nat) : List GoroutineEv :=
  (match initMopidyErr with
   | some e => [GoroutineEv.sendErrorToChannel e]
   | none => []) ++ [GoroutineEv.startMopidyCall]

/-- Events observable during one iteration of the custom main loop. -/
inductive LoopEv where
  | gtkMainIteration
  | execWork (w : Nat)
  | showNonFatal (e : Nat)
  | disableCall
deriving DecidableEq

/-- The Application state consulted by the custom main loop: the Work
and Errors channels (FIFO lists of pending items), the ShowingError
flag and the Running flag.  Work items and errors are abstracted to
identifiers. -/
structure MState where
  Work : List Nat
  Errors : List Nat
  ShowingError : Bool
  Running : Bool
deriving DecidableEq

/-- Embedding of one iteration of the custom main loop in main()
(src/main.go lines 83-106): first gtk.MainIteration, then a
non-blocking receive from app.Work whose item (if any) is executed
immediately, then, only if app.ShowingError is false, a non-blocking
receive from app.Errors; a received error sets ShowingError to true and
triggers NonFatal and Disable.  Both receives fall through via the
select default when the channel is empty. -/
def mainIteration (s : MState) : MState × List LoopEv :=
  let w := tryRecv s.Work
  let s1 : MState :=
    match w.1 with
    | some _ => { s with Work := w.2 }
    | none => s
  let evs1 : List LoopEv :=
    match w.1 with
    | some f => [LoopEv.execWork f]
    | none => []
  if s1.ShowingError then
    (s1, LoopEv.gtkMainIteration :: evs1)
  else
    let e := tryRecv s1.Errors
    match e.1 with
    | some err =>
      ({ s1 with Errors := e.2, ShowingError := true },
       LoopEv.gtkMainIteration :: evs1 ++ [LoopEv.showNonFatal err, LoopEv.disableCall])
    | none => (s1, LoopEv.gtkMainIteration :: evs1)

/-- Embedding of the loop shell for app.Running (src/main.go line 83),
with explicit fuel: while Running is true another iteration runs; when
Running is false the loop exits at the boundary check with no further
events. -/
def mainLoop : Nat → MState → MState × List LoopEv
  | 0, s => (s, [])
  | Nat.succ fuel, s =>
    if s.Running then
      let st := mainIteration s
      let rest := mainLoop fuel st.1
      (rest.1, st.2 ++ rest.2)
    else (s, [])

/-- A pending item on the Work channel during a Do call: the wrapper
closure that Application.Do (src/main.go lines 134-141) builds around
the caller's function f.  Executing it runs f and then sends the
completion token on the buffered done channel. -/
inductive WorkItem (σ : Type) where
  | wrapper (f : σ → σ)

/-- The phases of the thread calling Do: about to send the wrapper on
app.Work, blocked on the receive from done, and returned from Do. -/
inductive DoPhase where
  | enqueuing
  | waiting
  | returned
deriving DecidableEq

/-- Joint state of a Do caller and the main-loop consumer: the
UI-affine memory f mutates, the pending Work channel items, the done
channel (capacity 1, true when the token is present), the caller's
phase, and a count of how many times f has run. -/
structure DoState (σ : Type) where
  mem : σ
  workQ : List (WorkItem σ)
  done : Bool
  phase : DoPhase
  fRuns : Nat

/-- The main-loop consumer executing one received work item
(src/main.go lines 87-92): the wrapper runs f on the shared memory and
then sends the completion token. -/
def runWorkItem {σ : Type} (s : DoState σ) (it : WorkItem σ) : DoState σ :=
  match it with
  | WorkItem.wrapper f => { s with mem := f s.mem, done := true, fRuns := s.fRuns + 1 }

/-- Interleaved small-step semantics of one Do call against the main
loop: the caller enqueues the wrapper and moves to waiting; the main
loop pops and executes the oldest work item; the caller returns from Do
only by receiving the completion token. -/
inductive DoStep {σ : Type} (f : σ → σ) : DoState σ → DoState σ → Prop where
  | enqueue (s t : DoState σ)
      (hphase : s.phase = DoPhase.enqueuing)
      (ht : t = { s with workQ := s.workQ ++ [WorkItem.wrapper f],
                         phase := DoPhase.waiting }) :
      DoStep f s t
  | consume (s t : DoState σ) (it : WorkItem σ) (rest : List (WorkItem σ))
      (hq : s.workQ = it :: rest)
      (ht : t = runWorkItem { s with workQ := rest } it) :
      DoStep f s t
  | receiveDone (s t : DoState σ)
      (hphase : s.phase = DoPhase.waiting)
      (hdone : s.done = true)
      (ht : t = { s with done := false, phase := DoPhase.returned }) :
      DoStep f s t

/-- Initial state of a Do call: memory m0, empty Work channel, no
completion token, caller about to enqueue, f not yet run. -/
def DoStart {σ : Type} (m0 : σ) : DoState σ :=
  { mem := m0, workQ := [], done := false, phase := DoPhase.enqueuing, fRuns := 0 }

/-- States reachable from the start of a Do call by interleaving caller
and main-loop steps. -/
inductive DoReachable {σ : Type} (f : σ → σ) (m0 : σ) : DoState σ → Prop where
  | refl : DoReachable f m0 (DoStart m0)
  | tail {s t : DoState σ} :
      DoReachable f m0 s → DoStep f s t → DoReachable f m0 t

/-- Inductive invariant of the Do protocol, by caller phase: before the
wrapper is enqueued nothing has happened; while the caller waits either
the wrapper is still queued or it has run (exactly once, leaving f's
effect in memory and the token in the done channel); after Do returns
f has run exactly once and its effect is in memory. -/
def DoInv {σ : Type} (f : σ → σ) (m0 : σ) (s : DoState σ) : Prop :=
  (s.phase = DoPhase.enqueuing →
     s.workQ = [] ∧ s.done = false ∧ s.fRuns = 0 ∧ s.mem = m0) ∧
  (s.phase = DoPhase.waiting →
     (s.workQ = [WorkItem.wrapper f] ∧ s.done = false ∧ s.fRuns = 0 ∧ s.mem = m0) ∨
     (s.workQ = [] ∧ s.done = true ∧ s.fRuns = 1 ∧ s.mem = f m0)) ∧
  (s.phase = DoPhase.returned →
     s.workQ = [] ∧ s.done = false ∧ s.fRuns = 1 ∧ s.mem = f m0)

/-- State of the error-serialization system formed by the Errors
channel, the ShowingError flag and the NonFatal dialog lifecycle:
errQ is the pending Errors channel, visible the currently shown
dialogs, displayed every dialog shown so far in display order, and
arrived every error enqueued so far in arrival order. -/
structure ErrState where
  errQ : List Nat
  ShowingError : Bool
  visible : List Nat
  displayed : List Nat
  arrived : List Nat
deriving DecidableEq

/-- Small-step semantics of error surfacing: a producer enqueues an
error on app.Errors; the main loop (src/main.go lines 94-105) receives
one only when ShowingError is false, sets ShowingError to true and
shows the NonFatal dialog; the dialog's response callback (src/main.go
lines 126-129) destroys the dialog and resets ShowingError to false. -/
inductive ErrStep : ErrState → ErrState → Prop where
  | arrive (s t : ErrState) (e : Nat)
      (ht : t = { s with errQ := s.errQ ++ [e], arrived := s.arrived ++ [e] }) :
      ErrStep s t
  | drain (s t : ErrState) (e : Nat) (rest : List Nat)
      (hse : s.ShowingError = false)
      (hq : s.errQ = e :: rest)
      (ht : t = { s with errQ := rest, ShowingError := true,
                         visible := s.visible ++ [e],
                         displayed := s.displayed ++ [e] }) :
      ErrStep s t
  | dismiss (s t : ErrState) (e : Nat)
      (hv : s.visible = [e])
      (ht : t = { s with visible := [], ShowingError := false }) :
      ErrStep s t

/-- Initial error-surfacing state: nothing queued, shown or arrived. -/
def ErrStart : ErrState :=
  { errQ := [], ShowingError := false, visible := [], displayed := [], arrived := [] }

/-- States of the error-serialization system reachable from startup. -/
inductive ErrReachable : ErrState → Prop where
  | refl : ErrReachable ErrStart
  | tail {s t : ErrState} : ErrReachable s → ErrStep s t → ErrReachable t

/-- Inductive invariant of error serialization: ShowingError is true
exactly while a dialog is visible, at most one dialog is visible, and
the errors displayed so far followed by the still-queued ones are
exactly the errors that arrived, in arrival order. -/
def ErrInv (s : ErrState) : Prop :=
  (s.ShowingError = true ↔ s.visible ≠ []) ∧
  s.visible.length ≤ 1 ∧
  s.arrived = s.displayed ++ s.errQ

/-- The Do-protocol invariant holds initially. -/
theorem DoInv_start {σ : Type} (f : σ → σ) (m0 : σ) : DoInv f m0 (DoStart m0) := by
  refine ⟨fun _ => ⟨rfl, rfl, rfl, rfl⟩, fun hw => ?_, fun hr => ?_⟩
  · exact absurd hw (by simp [DoStart])
  · exact absurd hr (by simp [DoStart])

/-- The Do-protocol invariant is preserved by every step. -/
theorem DoInv_step {σ : Type} {f : σ → σ} {m0 : σ} {s t : DoState σ}
    (hinv : DoInv f m0 s) (hst : DoStep f s t) : DoInv f m0 t := by
  obtain ⟨he, hw, hr⟩ := hinv
  cases hst with
  | enqueue hphase ht =>
    subst ht
    obtain ⟨hq, hd, hf, hm⟩ := he hphase
    exact ⟨fun h => by simp at h, fun _ => Or.inl ⟨by simp [hq], hd, hf, hm⟩,
      fun h => by simp at h⟩
  | consume it rest hq ht =>
    subst ht
    cases hps : s.phase with
    | enqueuing => exact absurd ((he hps).1 ▸ hq) (by simp)
    | returned => exact absurd ((hr hps).1 ▸ hq) (by simp)
    | waiting =>
      rcases hw hps with ⟨hq1, hd, hf, hm⟩ | ⟨hq1, _, _, _⟩
      · rw [hq1] at hq
        obtain ⟨hit, hrest⟩ : it = WorkItem.wrapper f ∧ rest = [] := by
          cases hq; exact ⟨rfl, rfl⟩
        subst hit; subst hrest
        refine ⟨fun h => ?_, fun _ =>
            Or.inr ⟨rfl, rfl, by simp [runWorkItem, hf], by simp [runWorkItem, hm]⟩,
          fun h => ?_⟩ <;> simp [runWorkItem, hps] at h
      · exact absurd (hq1 ▸ hq) (by simp)
  | receiveDone hphase hdone ht =>
    subst ht
    rcases hw hphase with ⟨_, hd, _, _⟩ | ⟨hq1, _, hf, hm⟩
    · rw [hd] at hdone; cases hdone
    · exact ⟨fun h => by simp at h, fun h => by simp at h,
        fun _ => ⟨hq1, rfl, hf, hm⟩⟩

/-- The Do-protocol invariant holds in every reachable state. -/
theorem DoInv_reachable {σ : Type} {f : σ → σ} {m0 : σ} {s : DoState σ}
    (h : DoReachable f m0 s) : DoInv f m0 s := by
  induction h with
  | refl => exact DoInv_start f m0
  | tail _ hst ih => exact DoInv_step ih hst

/-- The error-serialization invariant holds initially. -/
theorem ErrInv_start : ErrInv ErrStart := by
  exact ⟨by simp [ErrStart], by simp [ErrStart], rfl⟩

/-- The error-serialization invariant is preserved by every step. -/
theorem ErrInv_step {s t : ErrState} (hinv : ErrInv s) (hst : ErrStep s t) :
    ErrInv t := by
  obtain ⟨h1, h2, h3⟩ := hinv
  cases hst with
  | arrive e ht =>
    subst ht
    exact ⟨h1, h2, by simp [h3]⟩
  | drain e rest hse hq ht =>
    subst ht
    have hvis : s.visible = [] := by
      by_contra hne
      rw [h1.mpr hne] at hse
      cases hse
    refine ⟨by simp, by simp [hvis], ?_⟩
    simp only
    rw [h3, hq]
    simp
  | dismiss e hv ht =>
    subst ht
    exact ⟨by simp, by simp, h3⟩

/-- The error-serialization invariant holds in every reachable state. -/
theorem ErrInv_reachable {s : ErrState} (h : ErrReachable s) : ErrInv s := by
  induction h with
  | refl => exact ErrInv_start
  | tail _ hst ih => exact ErrInv_step ih hst

/-- Claim C1: Do(f) enqueues onto the Work channel a wrapper that runs f
and then signals a one-shot completion token; Do returns only after that
token is received, so in any reachable state in which the caller has
returned from Do, f has executed exactly once (by the main-loop
consumer) and all of f's effects on the shared memory are complete. -/
theorem Do_runs_f_exactly_once_before_return {σ : Type} (f : σ → σ) (m0 : σ)
    (s : DoState σ) (h : DoReachable f m0 s)
    (hret : s.phase = DoPhase.returned) :
    s.fRuns = 1 ∧ s.mem = f m0 := by
  obtain ⟨_, _, hr⟩ := DoInv_reachable h
  exact ⟨(hr hret).2.2.1, (hr hret).2.2.2⟩

/-- Witness for C1: a concrete complete run of the Do protocol on memory
0 with f constantly 5 reaches the returned phase with f run once and
memory 5. -/
theorem Do_runs_f_exactly_once_before_return_witness :
    (⟨5, [], false, DoPhase.returned, 1⟩ : DoState Nat).fRuns = 1 ∧
    (⟨5, [], false, DoPhase.returned, 1⟩ : DoState Nat).mem = (fun _ => 5) 0 :=
  Do_runs_f_exactly_once_before_return (fun _ => 5) 0 _
    (DoReachable.tail
      (DoReachable.tail
        (DoReachable.tail DoReachable.refl
          (DoStep.enqueue _ _ rfl rfl))
        (DoStep.consume _ _ (WorkItem.wrapper (fun _ => 5)) [] rfl rfl))
      (DoStep.receiveDone _ _ rfl rfl rfl))
    rfl

/-- Claim C2: in every reachable state of the main-loop/NonFatal system
at most one NonFatal error dialog is visible, ShowingError is true
exactly while one is visible (so an error is received only when it is
false), and the errors displayed so far followed by the queued ones are
exactly the arrived errors in FIFO arrival order. -/
theorem NonFatal_serialized_fifo (s : ErrState) (h : ErrReachable s) :
    s.visible.length ≤ 1 ∧
    (s.ShowingError = true ↔ s.visible ≠ []) ∧
    s.arrived = s.displayed ++ s.errQ := by
  obtain ⟨h1, h2, h3⟩ := ErrInv_reachable h
  exact ⟨h2, h1, h3⟩

/-- Witness for C2: after errors 1 and 2 arrive and the main loop drains
the first, exactly one dialog is visible and the FIFO decomposition
holds at this concrete reachable state. -/
theorem NonFatal_serialized_fifo_witness :
    (⟨[2], true, [1], [1], [1, 2]⟩ : ErrState).visible.length ≤ 1 ∧
    ((⟨[2], true, [1], [1], [1, 2]⟩ : ErrState).ShowingError = true ↔
      (⟨[2], true, [1], [1], [1, 2]⟩ : ErrState).visible ≠ []) ∧
    (⟨[2], true, [1], [1], [1, 2]⟩ : ErrState).arrived =
      (⟨[2], true, [1], [1], [1, 2]⟩ : ErrState).displayed ++
      (⟨[2], true, [1], [1], [1, 2]⟩ : ErrState).errQ :=
  NonFatal_serialized_fifo _
    (ErrReachable.tail
      (ErrReachable.tail
        (ErrReachable.tail ErrReachable.refl (ErrStep.arrive _ _ 1 rfl))
        (ErrStep.arrive _ _ 2 rfl))
      (ErrStep.drain _ _ 1 [2] rfl rfl rfl))

/-- Claim C3: each main-loop iteration performs, in strict order, one
gtk.MainIteration, then at most one work item executed immediately,
then, only if ShowingError is false, at most one error item for which
ShowingError is set to true and NonFatal and Disable are invoked; the
loop shell repeats iterations exactly while Running is true. -/
theorem mainLoop_iteration_order (s : MState) (fuel : Nat) :
    (mainIteration s).2 =
      [LoopEv.gtkMainIteration]
      ++ (match s.Work with
          | [] => []
          | w :: _ => [LoopEv.execWork w])
      ++ (if s.ShowingError then []
          else
            match s.Errors with
            | [] => []
            | e :: _ => [LoopEv.showNonFatal e, LoopEv.disableCall]) ∧
    (mainIteration s).1.Work = s.Work.tail ∧
    (mainIteration s).1.Errors =
      (if s.ShowingError then s.Errors else s.Errors.tail) ∧
    (mainIteration s).1.ShowingError = (s.ShowingError || !s.Errors.isEmpty) ∧
    (mainIteration s).1.Running = s.Running ∧
    mainLoop (fuel + 1) s =
      (if s.Running then
        ((mainLoop fuel (mainIteration s).1).1,
         (mainIteration s).2 ++ (mainLoop fuel (mainIteration s).1).2)
      else (s, [])) := by
  obtain ⟨w, e, se, r⟩ := s
  refine ⟨?_, ?_, ?_, ?_, ?_, ?_⟩ <;>
    cases w <;> cases e <;> cases se <;> cases r <;>
      simp [mainIteration, mainLoop, tryRecv]

/-- Claim C8: the main loop never blocks on the Work or Errors queues:
when both are empty, an iteration still completes, performing only the
native gtk event batch and leaving the state unchanged — each receive is
non-blocking and falls through when nothing is pending. -/
theorem mainLoop_never_blocks (s : MState)
    (hw : s.Work = []) (he : s.Errors = []) :
    mainIteration s = (s, [LoopEv.gtkMainIteration]) := by
  obtain ⟨w, e, se, r⟩ := s
  simp only at hw he
  subst hw; subst he
  cases se <;> simp [mainIteration, tryRecv]

/-- Witness for C8: the iteration on a concrete state with empty queues
completes with only the native event batch. -/
theorem mainLoop_never_blocks_witness :
    mainIteration (⟨[], [], false, true⟩ : MState) =
      ((⟨[], [], false, true⟩ : MState), [LoopEv.gtkMainIteration]) :=
  mainLoop_never_blocks _ rfl rfl

/-- Claim C4: for every error and every main-loop nesting level, Fatal
shows a modal dialog carrying that error whose dismissal handler
requests process exit with the non-zero status 1, and Fatal drives a
nested event loop exactly when no native event loop is active (nesting
level 0) — independently of whether MainLoop has started. -/
theorem Fatal_exits_nonzero (err : Nat) (mainLevel : Nat) :
    (Application.Fatal err mainLevel).message = err ∧
    (Application.Fatal err mainLevel).dialogShown = true ∧
    exitCodes (Application.Fatal err mainLevel).onResponse = [1] ∧
    ([1] : List Nat).any (fun c => c == 0) = false ∧
    (Application.Fatal err mainLevel).onResponse.getLast? =
      some (FatalAct.osExit 1) ∧
    ((Application.Fatal err mainLevel).ranNestedLoop = true ↔ mainLevel = 0) := by
  refine ⟨rfl, rfl, rfl, rfl, rfl, ?_⟩
  simp [Application.Fatal]

/-- Claim C5 counterexample: SetStatus on the MopidyNotStarted member of
the status enum writes the status field but performs no Gui update at
all, so not every status write is paired with a UI label update. -/
theorem SetStatus_notStarted_unpaired :
    (SetStatus MopidyStatus.MopidyNotStarted).any isSetGui = false ∧
    (SetStatus MopidyStatus.MopidyNotStarted).any isWriteStatus = true := by
  decide

/-- Claim C5 as amended: for every status other than MopidyNotStarted,
SetStatus emits exactly a lock acquisition, the status write, one paired
Gui label update, and the lock release, in that order — the write and
its presentation update happen atomically under statusLock. -/
theorem SetStatus_locked_paired_update (status : MopidyStatus)
    (h : status ≠ MopidyStatus.MopidyNotStarted) :
    ∃ icon text, SetStatus status =
      [StatusEv.lockAcquire, StatusEv.writeStatus status,
       StatusEv.setGui icon text, StatusEv.lockRelease] := by
  cases status with
  | MopidyNotStarted => exact absurd rfl h
  | MopidyConnecting => exact ⟨_, _, rfl⟩
  | MopidyConnected => exact ⟨_, _, rfl⟩
  | MopidyFailed => exact ⟨_, _, rfl⟩

/-- Witness for the amended C5 at the concrete status MopidyConnected. -/
theorem SetStatus_locked_paired_update_witness :
    ∃ icon text, SetStatus MopidyStatus.MopidyConnected =
      [StatusEv.lockAcquire, StatusEv.writeStatus MopidyStatus.MopidyConnected,
       StatusEv.setGui icon text, StatusEv.lockRelease] :=
  SetStatus_locked_paired_update MopidyStatus.MopidyConnected (by decide)

/-- Claim C6: when the supervised-process record and its Cmd are
present, Quit succeeds, kills the process exactly when a process handle
is present (and touches it in no other case), and only afterwards sets
Running to false: the setRunningFalse event is the last event, occurs
once, and is never emitted before the kill. -/
theorem Quit_kill_then_stop (app : Application) (m : MopidyProc) (c : ExecCmd)
    (hm : app.Mopidy = some m) (hc : m.Cmd = some c) :
    ∃ app2 evs, app.Quit = Except.ok (app2, evs) ∧
      app2.Running = false ∧
      evs.getLast? = some QuitEv.setRunningFalse ∧
      (QuitEv.killProcess ∈ evs ↔ c.Process ≠ none) ∧
      evs.count QuitEv.setRunningFalse = 1 := by
  cases hp : c.Process with
  | none =>
    refine ⟨{ app with Running := false }, [QuitEv.setRunningFalse],
      ?_, rfl, rfl, ?_, by decide⟩
    · simp [Application.Quit, hm, hc, hp]
    · simp [hp]
  | some p =>
    refine ⟨{ app with Running := false },
      [QuitEv.killProcess, QuitEv.setRunningFalse],
      ?_, rfl, by decide, ?_, by decide⟩
    · simp [Application.Quit, hm, hc, hp]
    · simp [hp]

/-- Witness for C6 at a concrete application whose supervised process is
present and running. -/
theorem Quit_kill_then_stop_witness :
    ∃ app2 evs,
      (⟨some ⟨some ⟨some ⟨1⟩⟩⟩, true⟩ : Application).Quit =
        Except.ok (app2, evs) ∧
      app2.Running = false ∧
      evs.getLast? = some QuitEv.setRunningFalse ∧
      (QuitEv.killProcess ∈ evs ↔ (⟨some ⟨1⟩⟩ : ExecCmd).Process ≠ none) ∧
      evs.count QuitEv.setRunningFalse = 1 :=
  Quit_kill_then_stop _ ⟨some ⟨some ⟨1⟩⟩⟩ ⟨some ⟨1⟩⟩ rfl rfl

/-- Claim C9: Quit dereferences app.Mopidy.Cmd before its nil check on
the Process field, so it completes without a nil-pointer panic exactly
when Mopidy and its Cmd are non-nil; in particular calling Quit before
the supervised-process record exists panics. -/
theorem Quit_requires_mopidy_record (app : Application) :
    ((∃ r, app.Quit = Except.ok r) ↔
      ∃ m c, app.Mopidy = some m ∧ m.Cmd = some c) ∧
    (⟨none, true⟩ : Application).Quit =
      Except.error GoPanic.nilPointerDereference ∧
    (⟨some ⟨none⟩, true⟩ : Application).Quit =
      Except.error GoPanic.nilPointerDereference := by
  refine ⟨?_, rfl, rfl⟩
  obtain ⟨mo, r⟩ := app
  cases mo with
  | none => simp [Application.Quit]
  | some m =>
    cases hmc : m.Cmd with
    | none => simp [Application.Quit, hmc]
    | some c => simp [Application.Quit, hmc]

/-- Claim C7: whenever the mopidy executable lookup, the current-user
lookup or the configuration load fails, startup takes the immediate
Fatal path, whose dialog dismissal exits the process non-zero, and
nothing is routed to the Errors channel. -/
theorem startup_failures_take_fatal (env : StartupEnv)
    (h : env.lookPathMopidy = none ∨ env.currentUser = none ∨
         env.loadConfig = none) :
    mainStartup env = [StartupEv.fatalShown] ∧
    StartupEv.sentToErrorChannel ∉ mainStartup env := by
  obtain ⟨lp, cu, lc, gi⟩ := env
  have heq : mainStartup ⟨lp, cu, lc, gi⟩ = [StartupEv.fatalShown] := by
    cases lp with
    | none => rfl
    | some a =>
      cases cu with
      | none => rfl
      | some b =>
        cases lc with
        | none => rfl
        | some d =>
          exfalso
          rcases h with h | h | h
          · exact Option.noConfusion h
          · exact Option.noConfusion h
          · exact Option.noConfusion h
  exact ⟨heq, by rw [heq]; decide⟩

/-- Witness for C7: a concrete startup environment in which mopidy is
not installed takes the Fatal path and sends nothing to the Errors
channel. -/
theorem startup_failures_take_fatal_witness :
    mainStartup (⟨none, some "u", some 0, some 0⟩ : StartupEnv) =
      [StartupEv.fatalShown] ∧
    StartupEv.sentToErrorChannel ∉
      mainStartup (⟨none, some "u", some 0, some 0⟩ : StartupEnv) :=
  startup_failures_take_fatal _ (Or.inl rfl)

/-- Claim C10: in the startup background goroutine, an InitMopidy error
is sent to the Errors channel and StartMopidy is still invoked
afterwards; on success StartMopidy is invoked without any error send;
in every case the goroutine ends with the StartMopidy call. -/
theorem initMopidy_error_still_starts (e : Nat) :
    startupGoroutine (some e) =
      [GoroutineEv.sendErrorToChannel e, GoroutineEv.startMopidyCall] ∧
    startupGoroutine none = [GoroutineEv.startMopidyCall] ∧
    ∀ r : Option Nat,
      (startupGoroutine r).getLast? = some GoroutineEv.startMopidyCall := by
  refine ⟨rfl, rfl, fun r => ?_⟩
  cases r <;> rfl
